import Mathlib

/-!
Verification of the taco tensor runtime header (`src/include/taco/tensor.h`)
against its natural-language specification. The definitions below are a
shallow embedding of the runtime: coordinates are integer lists, component
values are integers, and the type-erased component type is carried as the
runtime tag the header compares (`getComponentType() == type<CType>()`).
Stages whose bodies live outside the staged sources (pack, compile,
assemble, compute, evaluate, syncValues, the generated iteration kernel)
are modelled from the specification's words and marked as such.
-/

/-- Decidable equality on `Except`, used to evaluate the model on concrete
inputs. -/
instance {ε α : Type} [DecidableEq ε] [DecidableEq α] : DecidableEq (Except ε α) :=
  fun x y =>
  match x, y with
  | .error a, .error b =>
    if h : a = b then .isTrue (h ▸ rfl)
    else .isFalse (fun he => h (Except.error.inj he))
  | .ok a, .ok b =>
    if h : a = b then .isTrue (h ▸ rfl)
    else .isFalse (fun he => h (Except.ok.inj he))
  | .error _, .ok _ => .isFalse (fun he => Except.noConfusion he)
  | .ok _, .error _ => .isFalse (fun he => Except.noConfusion he)

namespace Taco

/-- A coordinate tuple, `std::vector<int>` in the source. -/
abbrev Coord := List Int

/-- One logical record of the Coordinate Buffer: a coordinate tuple and one
component value (`order` integers followed by one value slot). -/
abbrev CoordRecord := Coord × Int

/-- Per-mode storage kind (`ModeFormat`): dense or compressed. -/
inductive ModeFormatKind
  | dense
  | compressed
deriving DecidableEq

/-- A `Format`: the per-mode storage kinds plus the mode ordering. -/
structure Format where
  modeFormats : List ModeFormatKind
  modeOrdering : List Nat
deriving DecidableEq

/-- The CSR matrix format: (dense, compressed) with row-major mode order. -/
def CSR : Format :=
  ⟨[ModeFormatKind.dense, ModeFormatKind.compressed], [0, 1]⟩

/-- The physical side of `TensorStorage` reached by `getModeIndex(m).getIndexArray(k)`:
per mode a list of index arrays (position array = 0, coordinate array = 1),
plus the value array. Index arrays hold integers (their type is fixed). -/
structure TensorStorage where
  modeIndices : List (List (List Int))
  values : List Int
deriving DecidableEq

/-- The shared content of one `TensorBase` handle: metadata, the Coordinate
Buffer (its records, plus the byte capacity bookkeeping `coordinateBuffer->size()`,
`coordinateBufferUsed` and the per-record byte size `coordinateSize`), the
packed storage as the record list the iteration kernel yields, the physical
arrays, the pending assignment (modelled by the record list computing it
would produce), and the four need-flags. -/
structure TensorState where
  name : String
  componentType : String
  dims : List Int
  format : Format
  buffer : List CoordRecord
  bufSize : Nat
  bufUsed : Nat
  coordinateSize : Nat
  storage : List CoordRecord
  phys : TensorStorage
  assignment : Option (List CoordRecord)
  needsPack : Bool
  needsCompile : Bool
  needsAssemble : Bool
  needsCompute : Bool
  kernelCompiled : Bool
deriving DecidableEq

/-- `TensorBase::getOrder()`: the number of modes, `dimensions.size()`. -/
def TensorState.order (t : TensorState) : Nat := t.dims.length

/-- `TensorBase::insert(const std::vector<int>&, CType)` (tensor.h 778-798):
check the coordinate arity against the order and the value type against the
component type, grow the coordinate buffer by one record size when the
remaining capacity is insufficient, then append the record and set
`needsPack`. `syncDependentTensors()` is a no-op in this single-tensor
model (the dependent set is empty). -/
def insert (t : TensorState) (ctype : String) (coordinate : Coord) (value : Int) :
    Except String TensorState :=
  if coordinate.length ≠ t.order then
    .error "Wrong number of indices"
  else if t.componentType ≠ ctype then
    .error ("Cannot insert a value of type '" ++ ctype ++ "' " ++
            "into a tensor with component type " ++ t.componentType)
  else
    .ok { t with
          bufSize := if t.bufSize - t.bufUsed < t.coordinateSize
                     then t.bufSize + t.coordinateSize else t.bufSize,
          bufUsed := t.bufUsed + t.coordinateSize,
          buffer := t.buffer ++ [(coordinate, value)],
          needsPack := true }

/-- A sequence of insertions, each through `insert` with the tensor's own
component type (as every `Tensor<CType>` method does, `CType` being checked
equal to the component type at construction, tensor.h 886-890). -/
def insertAll (t : TensorState) (ops : List CoordRecord) : Except String TensorState :=
  match ops with
  | [] => .ok t
  | (c, v) :: rest =>
    match insert t t.componentType c v with
    | .error e => .error e
    | .ok t' => insertAll t' rest

/-- `TensorBase::setFromComponents` (tensor.h 810-815): a loop calling
`insert` on each component of the input range, in order. -/
def setFromComponents (t : TensorState) (components : List CoordRecord) :
    Except String TensorState :=
  insertAll t components

/-- Fold one buffered record into an accumulated duplicate-free list: add the
value into the existing entry with the structurally same coordinate, else
append a new entry. -/
def addRecord : List CoordRecord → Coord → Int → List CoordRecord
  | [], c, v => [(c, v)]
  | (c', v') :: rest, c, v =>
    if c' = c then (c', v' + v) :: rest else (c', v') :: addRecord rest c v

/-- Modelled from the spec: the generated pack kernel is not among the staged
sources (the code generator is an external collaborator); per the spec it
combines structurally duplicate coordinates of the Coordinate Buffer by
addition. -/
def packCoords (buf : List CoordRecord) : List CoordRecord :=
  buf.foldl (fun acc r => addRecord acc r.1 r.2) []

/-- Modelled from the spec: `TensorBase::pack` is only declared in tensor.h
(line 362); its body lives in the repository's missing tensor.cpp. Per the
spec it consumes the Coordinate Buffer into a new storage with duplicates
summed, logically clears the buffer, clears `needsPack`, and sets
`needsAssemble`/`needsCompute` when an assignment is pending. -/
def pack (t : TensorState) : TensorState :=
  { t with
    storage := packCoords t.buffer,
    buffer := [],
    bufUsed := 0,
    needsPack := false,
    needsAssemble := t.needsAssemble || t.assignment.isSome,
    needsCompute := t.needsCompute || t.assignment.isSome }

/-- Modelled from the spec: `TensorBase::compile` (declared tensor.h 365) is
in the missing tensor.cpp; it requires an assignment (a missing assignment
is a contract violation), obtains the kernel pair, and clears `needsCompile`. -/
def compile (t : TensorState) : Except String TensorState :=
  match t.assignment with
  | none => .error "Compile needs an expression"
  | some _ => .ok { t with kernelCompiled := true, needsCompile := false }

/-- Modelled from the spec: `TensorBase::assemble` (declared tensor.h 368) is
in the missing tensor.cpp; it sizes the output structure (abstracted away
here) and clears `needsAssemble`. -/
def assemble (t : TensorState) : Except String TensorState :=
  match t.assignment with
  | none => .error "Assemble needs an expression"
  | some _ => .ok { t with needsAssemble := false }

/-- Modelled from the spec: `TensorBase::compute` (declared tensor.h 371) is
in the missing tensor.cpp; it fills the destination values from the
assignment's result and clears `needsCompute`. -/
def compute (t : TensorState) : Except String TensorState :=
  match t.assignment with
  | none => .error "Compute needs an expression"
  | some result => .ok { t with storage := result, needsCompute := false }

/-- Modelled from the spec: `TensorBase::evaluate` (declared tensor.h 373-374)
is in the missing tensor.cpp; it runs exactly the subsequence of pack,
compile, assemble, compute whose need-flags are set, in that fixed order; a
stage that runs may set a later stage's flag, which the later guard then
sees. -/
def evaluate (t : TensorState) : Except String TensorState :=
  let t1 := if t.needsPack then pack t else t
  Except.bind (if t1.needsCompile then compile t1 else .ok t1) fun t2 =>
  Except.bind (if t2.needsAssemble then assemble t2 else .ok t2) fun t3 =>
  (if t3.needsCompute then compute t3 else .ok t3)

/-- Modelled from the spec: `TensorBase::syncValues` (declared tensor.h 456)
is in the missing tensor.cpp; it forces `evaluate()` to completion. -/
def syncValues (t : TensorState) : Except String TensorState :=
  evaluate t

/-- All four need-flags are clear. -/
def flagsClear (t : TensorState) : Bool :=
  !t.needsPack && !t.needsCompile && !t.needsAssemble && !t.needsCompute

/-- First-match lookup over a record list, 0 when no coordinate matches (the
loop and final `return 0` of `TensorBase::at`). -/
def lookupZero : List CoordRecord → Coord → Int
  | [], _ => 0
  | (c', v) :: rest, c => if c' = c then v else lookupZero rest c

/-- The values a record list holds at a coordinate, summed. -/
def sumAt (l : List CoordRecord) (c : Coord) : Int :=
  ((l.filter (fun r => r.1 == c)).map (fun r => r.2)).sum

/-- `TensorBase::at` (tensor.h 817-832): check arity and component type, call
`syncValues()`, then scan the iterated (coordinate, value) pairs for the
first match, returning 0 when no coordinate matches. Iterating the synced
tensor is modelled as walking its storage's record list. -/
def atCoord (t : TensorState) (ctype : String) (coordinate : Coord) :
    Except String (TensorState × Int) :=
  if coordinate.length ≠ t.order then
    .error "Wrong number of indices"
  else if t.componentType ≠ ctype then
    .error ("Cannot get a value of type '" ++ ctype ++ "' " ++
            "from a tensor with component type " ++ t.componentType)
  else
    match syncValues t with
    | .error e => .error e
    | .ok t' => .ok (t', lookupZero t'.storage coordinate)

/-- `TensorBase::iterator() const` (tensor.h 834-837): construct the
iteration wrapper WITHOUT calling `syncValues()`; the records the fresh
iterator will yield are the current storage's records (modelled from the
spec's iteration-kernel contract). `Tensor::begin() const` (tensor.h
967-969) goes through this overload. -/
def iteratorConst (t : TensorState) : TensorState × List CoordRecord :=
  (t, t.storage)

/-- `TensorBase::iterator()` non-const (tensor.h 844-848): call `syncValues()`
first, then construct the iteration wrapper over the synced storage.
`Tensor::begin()` non-const (tensor.h 988-991) goes through this overload. -/
def iteratorNonconst (t : TensorState) :
    Except String (TensorState × List CoordRecord) :=
  match syncValues t with
  | .error e => .error e
  | .ok t' => .ok (t', t'.storage)

/-- Modelled from the spec: `equals(const TensorBase&, const TensorBase&)`
(declared tensor.h 419) has its body in the repository's missing
tensor.cpp; per the spec's read protocol — "Reads (`at`, iteration,
`operator==`, printing) first call `syncValues()`" — it forces both
tensors' evaluation to completion and then compares their type and values. -/
def tensorEquals (a b : TensorState) :
    Except String (TensorState × TensorState × Bool) :=
  match syncValues a with
  | .error e => .error e
  | .ok a' =>
    match syncValues b with
    | .error e => .error e
    | .ok b' =>
      .ok (a', b', a'.componentType == b'.componentType &&
           a'.dims == b'.dims && a'.storage == b'.storage)

/-- Modelled from the spec: `operator<<(std::ostream&, TensorBase&)`
(declared tensor.h 435-436) has its body in the repository's missing
tensor.cpp; per the spec's read protocol it first calls `syncValues()` and
then renders the synced storage's records (the rendered values are modelled
as that record list). -/
def printTensor (t : TensorState) :
    Except String (TensorState × List CoordRecord) :=
  match syncValues t with
  | .error e => .error e
  | .ok t' => .ok (t', t'.storage)

/-- `getCSRArrays` (tensor.h 672-687): require the CSR format, then expose
mode 1's position array (index array 0), its coordinate array (index array
1) and the value array, without copying or coercing. -/
def getCSRArrays (t : TensorState) :
    Except String (List Int × List Int × List Int) :=
  if t.format ≠ CSR then
    .error ("The tensor " ++ t.name ++ " is not defined in the CSR format")
  else
    .ok ((t.phys.modeIndices.getD 1 []).getD 0 [],
         (t.phys.modeIndices.getD 1 []).getD 1 [],
         t.phys.values)

/-- `ScalarAccess::operator=` (tensor.h 564-566): writing through a scalar
access calls `tensor->insert<CType>(indices, scalar)`; `CType` equals the
component type (checked at `Tensor<CType>` construction, tensor.h 886-890). -/
def scalarAssign (t : TensorState) (indices : Coord) (value : Int) :
    Except String TensorState :=
  insert t t.componentType indices value

/-- `ScalarAccess::operator CType` (tensor.h 568-570): reading through a
scalar access calls `tensor->at<CType>(indices)`. -/
def scalarRead (t : TensorState) (indices : Coord) :
    Except String (TensorState × Int) :=
  atCoord t t.componentType indices

/-- Repeated assignment through one scalar access (`tensor(i,j) = v` n times):
each assignment is `scalarAssign` at the access's indices. -/
def scalarAssignAll (t : TensorState) (indices : Coord) (vs : List Int) :
    Except String TensorState :=
  match vs with
  | [] => .ok t
  | v :: rest =>
    match scalarAssign t indices v with
    | .error e => .error e
    | .ok t' => scalarAssignAll t' indices rest

/-- A fresh tensor as the `Tensor<CType>(name, dimensions, format)`
constructor chain creates it: empty buffer and storage, no pending stages.
`coordinateSize` is order * sizeof(int) + the component size, fixed here at
4-byte components. -/
def mkTensor (ctype : String) (dims : List Int) : TensorState :=
  { name := "A",
    componentType := ctype,
    dims := dims,
    format := ⟨dims.map (fun _ => ModeFormatKind.compressed), List.range dims.length⟩,
    buffer := [],
    bufSize := 0,
    bufUsed := 0,
    coordinateSize := 4 * dims.length + 4,
    storage := [],
    phys := ⟨[], []⟩,
    assignment := none,
    needsPack := false,
    needsCompile := false,
    needsAssemble := false,
    needsCompute := false,
    kernelCompiled := false }

/-- The coordinate permutation `Tensor::transpose` applies: entry `i` of the
new coordinate is `coordinate[newModeOrdering[i]]` (tensor.h 956-959). -/
def permuteCoord (p : List Nat) (c : Coord) : Coord :=
  p.map (fun m => c.getD m 0)

/-- `Tensor::transpose` (tensor.h 946-964): permute the dimensions by the new
mode ordering, iterate this tensor (const-qualified iteration over the
current storage), insert every value at its permuted coordinate into a
fresh tensor of the permuted shape, pack it and return it. -/
def transpose (t : TensorState) (p : List Nat) : Except String TensorState :=
  Except.map pack
    (insertAll (mkTensor t.componentType (p.map (fun m => t.dims.getD m 0)))
      ((iteratorConst t).2.map (fun r => (permuteCoord p r.1, r.2))))

/-- A coordinate lying within the declared dimension bounds. -/
def inRange (dims : List Int) (c : Coord) : Bool :=
  c.length == dims.length &&
  (List.zip c dims).all (fun q => decide (0 ≤ q.1) && decide (q.1 < q.2))

/-- Whether the second list is an initial segment of the first. -/
def listStarts : List Char → List Char → Bool
  | _, [] => true
  | [], _ :: _ => false
  | h :: tl, n :: m => (h == n) && listStarts tl m

/-- Whether `needle` occurs contiguously inside `hay`. -/
def hasSubstr : List Char → List Char → Bool
  | [], needle => listStarts [] needle
  | c :: tl, needle => listStarts (c :: tl) needle || hasSubstr tl needle

/-- The iterator's shared context (`const_iterator::Context`, tensor.h
211-229): the last-filled batch of (coordinate, value) records standing for
the coordinate and value buffers, the current pair `curVal`, and the
generated code's opaque iteration state `iterCtx`, modelled from the spec
as the stream of records the iteration kernel has not yet delivered. -/
structure IterCtx where
  buf : List CoordRecord
  curVal : CoordRecord
  stream : List CoordRecord
deriving DecidableEq, Inhabited

/-- One iterator handle (`const_iterator`, tensor.h 155-293): the per-handle
fields the copy constructor copies by value, plus `ctxId`, the handle's
reference into the heap of shared contexts (the `shared_ptr<Context>`). -/
structure Iter where
  tensorId : Nat
  bufferCapacity : Nat
  bufferSize : Nat
  bufferPos : Nat
  ctxId : Nat
deriving DecidableEq

/-- The heap of iteration contexts with their `shared_ptr` use counts. -/
structure IterWorld where
  heap : List IterCtx
  counts : List Nat
deriving DecidableEq

/-- The copy constructor (tensor.h 163-172): copy every per-handle field and
share the context, raising its use count. -/
def copyIter (w : IterWorld) (it : Iter) : IterWorld × Iter :=
  ({ w with counts := w.counts.set it.ctxId (w.counts.getD it.ctxId 0 + 1) }, it)

/-- The stage of `advance` past the copy-on-write check (tensor.h 264-273):
step the intra-batch position; if the batch is exhausted, refill it through
the generated iteration kernel — modelled from the spec's five-argument
kernel contract as taking up to `bufferCapacity` records off the remaining
stream, a count of zero signalling end — and reset the position; finally
read the current pair out of the batch at the new position (at end the C++
reads stale buffer bytes the interface never exposes; the model keeps the
previous pair). Returns the mutated context, the new batch size and the new
position. -/
def advCore (ctx : IterCtx) (cap size pos : Nat) : IterCtx × Nat × Nat :=
  let p := pos + 1
  if size ≤ p then
    let batch := ctx.stream.take cap
    ({ buf := batch, stream := ctx.stream.drop cap,
       curVal := batch.getD 0 ctx.curVal }, batch.length, 0)
  else
    ({ ctx with curVal := ctx.buf.getD p ctx.curVal }, size, p)

/-- `const_iterator::advance` (tensor.h 251-274): when the context is shared
(use count above one) the whole context — coordinate buffer, value buffer
and opaque iteration state — is cloned first, the clone appended to the
heap with use count one, the original's use count dropped by one, and this
handle rebound to the clone (copy-on-write); then the position/refill/read
stage `advCore` runs against the handle's (possibly cloned) context and its
result is written back. -/
def advance (w : IterWorld) (it : Iter) : IterWorld × Iter :=
  let wi : IterWorld × Iter :=
    if 1 < w.counts.getD it.ctxId 0 then
      ({ heap := w.heap ++ [w.heap.getD it.ctxId default],
         counts := (w.counts.set it.ctxId (w.counts.getD it.ctxId 0 - 1)) ++ [1] },
       { it with ctxId := w.heap.length })
    else (w, it)
  let r := advCore (wi.1.heap.getD wi.2.ctxId default)
             wi.2.bufferCapacity wi.2.bufferSize wi.2.bufferPos
  ({ wi.1 with heap := wi.1.heap.set wi.2.ctxId r.1 },
   { wi.2 with bufferSize := r.2.1, bufferPos := r.2.2 })

/-- Copy an iterator, then advance the copy (the scenario of the
iterator-independence property). -/
def copyAdvanced (w : IterWorld) (it : Iter) : IterWorld × Iter :=
  advance (copyIter w it).1 (copyIter w it).2

/-- The observable state of one iterator handle: its intra-batch position,
its batch size (whose zeroness is `isEnd()`), and the current
(coordinate, value) pair `operator*` returns. -/
def obs (w : IterWorld) (it : Iter) : Nat × Nat × CoordRecord :=
  (it.bufferPos, it.bufferSize, (w.heap.getD it.ctxId default).curVal)

/-- `const_iterator::operator==` (tensor.h 193-197): same tensor AND same
end status AND (at end, or structurally equal current coordinate tuples);
`isEnd()` is `bufferSize == 0` (tensor.h 204-206). -/
def iterEq (w : IterWorld) (a b : Iter) : Bool :=
  (a.tensorId == b.tensorId) &&
  ((a.bufferSize == 0) == (b.bufferSize == 0)) &&
  ((a.bufferSize == 0) ||
   ((w.heap.getD a.ctxId default).curVal.1 == (w.heap.getD b.ctxId default).curVal.1))

/-- The claim's wording of iterator equality: both iterators at end, or both
referencing the same tensor with equal current coordinate tuples. -/
def iterEqClaim (w : IterWorld) (a b : Iter) : Bool :=
  ((a.bufferSize == 0) && (b.bufferSize == 0)) ||
  ((a.tensorId == b.tensorId) &&
   ((w.heap.getD a.ctxId default).curVal.1 == (w.heap.getD b.ctxId default).curVal.1))

/-! ### List helpers -/

theorem getD_set_self {α : Type} (l : List α) (i : Nat) (x d : α)
    (h : i < l.length) : (l.set i x).getD i d = x := by
  rw [List.getD_eq_getElem _ _ (by simpa using h)]
  simp

theorem getD_set_ne {α : Type} (l : List α) (i j : Nat) (x d : α)
    (h : i ≠ j) : (l.set i x).getD j d = l.getD j d := by
  rcases Nat.lt_or_ge j l.length with hj | hj
  · rw [List.getD_eq_getElem _ _ (by simpa using hj), List.getD_eq_getElem _ _ hj]
    exact List.getElem_set_ne h _
  · rw [List.getD_eq_default _ _ (by simpa using hj), List.getD_eq_default _ _ hj]

/-! ### Duplicate summation: pack as sum over the inserted records -/

theorem lookupZero_addRecord (acc : List CoordRecord) (c' c : Coord) (v : Int) :
    lookupZero (addRecord acc c' v) c =
      lookupZero acc c + (if c' = c then v else 0) := by
  induction acc with
  | nil =>
    by_cases h : c' = c <;> simp [addRecord, lookupZero, h]
  | cons hd tl ih =>
    obtain ⟨c0, v0⟩ := hd
    by_cases h1 : c0 = c'
    · subst h1
      by_cases h2 : c0 = c
      · subst h2
        simp [addRecord, lookupZero]
      · simp [addRecord, lookupZero, h2]
    · by_cases h2 : c0 = c
      · subst h2
        have hcc : ¬ c' = c0 := fun he => h1 he.symm
        simp [addRecord, lookupZero, h1, hcc]
      · simp [addRecord, lookupZero, h1, h2, ih]

theorem lookupZero_packFold (l acc : List CoordRecord) (c : Coord) :
    lookupZero (l.foldl (fun a r => addRecord a r.1 r.2) acc) c =
      lookupZero acc c + sumAt l c := by
  induction l generalizing acc with
  | nil => simp [sumAt]
  | cons hd tl ih =>
    rw [List.foldl_cons, ih, lookupZero_addRecord]
    by_cases h : hd.1 = c
    · simp [sumAt, List.filter_cons, h]
      ring
    · simp [sumAt, List.filter_cons, h]

theorem lookupZero_packCoords (l : List CoordRecord) (c : Coord) :
    lookupZero (packCoords l) c = sumAt l c := by
  rw [packCoords, lookupZero_packFold]
  simp [lookupZero]

theorem sumAt_perm {l l' : List CoordRecord} (h : l.Perm l') (c : Coord) :
    sumAt l c = sumAt l' c :=
  List.Perm.sum_eq (List.Perm.map _ (List.Perm.filter _ h))

/-! ### Packing a duplicate-free record list is the identity -/

theorem addRecord_of_not_mem (acc : List CoordRecord) (c : Coord) (v : Int)
    (h : c ∉ acc.map Prod.fst) : addRecord acc c v = acc ++ [(c, v)] := by
  induction acc with
  | nil => simp [addRecord]
  | cons hd tl ih =>
    obtain ⟨c0, v0⟩ := hd
    have h1 : ¬ c0 = c := fun he => h (by simp [he])
    have h2 : c ∉ tl.map Prod.fst := fun hm => h (by simp [hm])
    simp [addRecord, h1, ih h2]

theorem packFold_of_nodup (l acc : List CoordRecord)
    (hdisj : ∀ r ∈ l, r.1 ∉ acc.map Prod.fst)
    (hnodup : (l.map Prod.fst).Nodup) :
    l.foldl (fun a r => addRecord a r.1 r.2) acc = acc ++ l := by
  induction l generalizing acc with
  | nil => simp
  | cons hd tl ih =>
    rw [List.map_cons, List.nodup_cons] at hnodup
    rw [List.foldl_cons, addRecord_of_not_mem acc hd.1 hd.2 (hdisj hd (by simp))]
    have hdisj' : ∀ r ∈ tl, r.1 ∉ (acc ++ [(hd.1, hd.2)]).map Prod.fst := by
      intro r hr
      rw [List.map_append, List.mem_append]
      rintro (hm | hm)
      · exact hdisj r (List.mem_cons_of_mem _ hr) hm
      · simp only [List.map_cons, List.map_nil, List.mem_singleton] at hm
        exact hnodup.1 (hm ▸ List.mem_map_of_mem Prod.fst hr)
    rw [ih (acc ++ [(hd.1, hd.2)]) hdisj' hnodup.2, List.append_assoc]
    simp

theorem packCoords_of_nodup (l : List CoordRecord)
    (h : (l.map Prod.fst).Nodup) : packCoords l = l := by
  rw [packCoords, packFold_of_nodup l [] (by simp) h]
  simp

/-! ### First-match lookup on duplicate-free storage -/

theorem lookupZero_of_mem {l : List CoordRecord} {c : Coord} {v : Int}
    (hnodup : (l.map Prod.fst).Nodup) (hmem : (c, v) ∈ l) :
    lookupZero l c = v := by
  induction l with
  | nil => simp at hmem
  | cons hd tl ih =>
    obtain ⟨c0, v0⟩ := hd
    rw [List.map_cons, List.nodup_cons] at hnodup
    rcases List.mem_cons.mp hmem with h | h
    · have he1 : c = c0 := congrArg Prod.fst h
      have he2 : v = v0 := congrArg Prod.snd h
      subst he1
      subst he2
      simp [lookupZero]
    · have hne : ¬ c0 = c := by
        intro he
        subst he
        exact hnodup.1 (List.mem_map.mpr ⟨(c0, v), h, rfl⟩)
      simp [lookupZero, hne, ih hnodup.2 h]

theorem lookupZero_of_absent {l : List CoordRecord} {c : Coord}
    (h : ∀ r ∈ l, r.1 ≠ c) : lookupZero l c = 0 := by
  induction l with
  | nil => simp [lookupZero]
  | cons hd tl ih =>
    obtain ⟨c0, v0⟩ := hd
    simp [lookupZero, h (c0, v0) (by simp), ih (fun r hr => h r (by simp [hr]))]

/-! ### What a successful insert does to the state -/

theorem insert_ok {t u : TensorState} {ty : String} {c : Coord} {v : Int}
    (h : insert t ty c v = .ok u) :
    u = { t with
          bufSize := if t.bufSize - t.bufUsed < t.coordinateSize
                     then t.bufSize + t.coordinateSize else t.bufSize,
          bufUsed := t.bufUsed + t.coordinateSize,
          buffer := t.buffer ++ [(c, v)],
          needsPack := true } ∧
    c.length = t.order ∧ t.componentType = ty := by
  rw [insert] at h
  split at h
  · exact absurd h (by simp)
  · split at h
    · exact absurd h (by simp)
    · refine ⟨(Except.ok.inj h).symm, ?_, ?_⟩
      · by_contra hne
        simp_all
      · by_contra hne
        simp_all

theorem insertAll_ok {t t' : TensorState} {ops : List CoordRecord}
    (h : insertAll t ops = .ok t') :
    t'.buffer = t.buffer ++ ops ∧ t'.componentType = t.componentType ∧
    t'.dims = t.dims ∧ t'.assignment = t.assignment ∧
    t'.storage = t.storage ∧ t'.name = t.name ∧ t'.format = t.format ∧
    t'.needsAssemble = t.needsAssemble ∧ t'.needsCompute = t.needsCompute := by
  induction ops generalizing t with
  | nil =>
    rw [insertAll] at h
    cases Except.ok.inj h
    simp
  | cons hd tl ih =>
    obtain ⟨c, v⟩ := hd
    rw [insertAll] at h
    cases hi : insert t t.componentType c v with
    | error e => rw [hi] at h; exact absurd h (by simp)
    | ok u =>
      rw [hi] at h
      have hu := (insert_ok hi).1
      subst hu
      have := ih h
      simpa using this

theorem insertAll_total (t : TensorState) (ops : List CoordRecord)
    (h : ∀ r ∈ ops, r.1.length = t.order) :
    ∃ t', insertAll t ops = .ok t' := by
  induction ops generalizing t with
  | nil => exact ⟨t, rfl⟩
  | cons hd tl ih =>
    obtain ⟨c, v⟩ := hd
    have hc : c.length = t.order := h (c, v) (by simp)
    have hins : insert t t.componentType c v = .ok { t with
        bufSize := if t.bufSize - t.bufUsed < t.coordinateSize
                   then t.bufSize + t.coordinateSize else t.bufSize,
        bufUsed := t.bufUsed + t.coordinateSize,
        buffer := t.buffer ++ [(c, v)],
        needsPack := true } := by
      rw [insert, if_neg (by simp [hc]), if_neg (by simp)]
    rw [insertAll, hins]
    apply ih
    intro r hr
    simpa [TensorState.order] using h r (by simp [hr])

/-! ### The evaluate state machine -/

theorem evaluate_noop {t : TensorState} (h : flagsClear t = true) :
    evaluate t = .ok t := by
  rw [flagsClear] at h
  simp only [Bool.and_eq_true, Bool.not_eq_true'] at h
  obtain ⟨⟨⟨h1, h2⟩, h3⟩, h4⟩ := h
  rw [evaluate]
  simp [h1, h2, h3, h4, Except.bind]

theorem bind_eq_ok {e : Type} {a b : Type} {x : Except e a} {f : a → Except e b}
    {y : b} (h : Except.bind x f = .ok y) : ∃ z, x = .ok z ∧ f z = .ok y := by
  cases x with
  | error er => exact absurd h (by simp [Except.bind])
  | ok z => exact ⟨z, rfl, h⟩

theorem compile_step_flags {t1 t2 : TensorState}
    (h : (if t1.needsCompile then compile t1 else .ok t1) = .ok t2) :
    t2.needsPack = t1.needsPack ∧ t2.needsCompile = false ∧
    t2.needsAssemble = t1.needsAssemble ∧ t2.needsCompute = t1.needsCompute := by
  by_cases hb : t1.needsCompile
  · rw [if_pos hb, compile] at h
    rcases hx : t1.assignment with _ | a
    · rw [hx] at h
      exact absurd h (by simp)
    · rw [hx] at h
      cases Except.ok.inj h
      exact ⟨rfl, rfl, rfl, rfl⟩
  · rw [if_neg hb] at h
    cases Except.ok.inj h
    exact ⟨rfl, by simpa using hb, rfl, rfl⟩

theorem assemble_step_flags {t2 t3 : TensorState}
    (h : (if t2.needsAssemble then assemble t2 else .ok t2) = .ok t3) :
    t3.needsPack = t2.needsPack ∧ t3.needsCompile = t2.needsCompile ∧
    t3.needsAssemble = false ∧ t3.needsCompute = t2.needsCompute := by
  by_cases hb : t2.needsAssemble
  · rw [if_pos hb, assemble] at h
    rcases hx : t2.assignment with _ | a
    · rw [hx] at h
      exact absurd h (by simp)
    · rw [hx] at h
      cases Except.ok.inj h
      exact ⟨rfl, rfl, rfl, rfl⟩
  · rw [if_neg hb] at h
    cases Except.ok.inj h
    exact ⟨rfl, rfl, by simpa using hb, rfl⟩

theorem compute_step_flags {t3 t4 : TensorState}
    (h : (if t3.needsCompute then compute t3 else .ok t3) = .ok t4) :
    t4.needsPack = t3.needsPack ∧ t4.needsCompile = t3.needsCompile ∧
    t4.needsAssemble = t3.needsAssemble ∧ t4.needsCompute = false := by
  by_cases hb : t3.needsCompute
  · rw [if_pos hb, compute] at h
    rcases hx : t3.assignment with _ | a
    · rw [hx] at h
      exact absurd h (by simp)
    · rw [hx] at h
      cases Except.ok.inj h
      exact ⟨rfl, rfl, rfl, rfl⟩
  · rw [if_neg hb] at h
    cases Except.ok.inj h
    exact ⟨rfl, rfl, rfl, by simpa using hb⟩

theorem evaluate_flags {t t' : TensorState} (h : evaluate t = .ok t') :
    flagsClear t' = true := by
  rw [evaluate] at h
  set t1 := if t.needsPack then pack t else t with ht1
  have h1 : t1.needsPack = false := by
    rw [ht1]
    split
    · simp [pack]
    · simp_all
  clear_value t1
  obtain ⟨t2, hc, h⟩ := bind_eq_ok h
  obtain ⟨t3, ha, h⟩ := bind_eq_ok h
  have f2 := compile_step_flags hc
  have f3 := assemble_step_flags ha
  have f4 := compute_step_flags h
  rw [flagsClear]
  simp [f4.1, f4.2.1, f4.2.2.1, f4.2.2.2, f3.1, f3.2.1, f3.2.2.1,
        f2.1, f2.2.1, h1]

/-! ### Claim C1: duplicate summation, order independent -/

/-- C1: for every sequence of insertions into a tensor (via `insert`, here
`insertAll`, or `setFromComponents`) that contains coordinate C with values
v1..vk, after `pack()` the stored value at C equals v1+...+vk (`sumAt`),
independently of the order in which the insertions were made. -/
theorem C1_duplicate_summation (t : TensorState) (ops ops2 : List CoordRecord)
    (t1 t2 : TensorState) (C : Coord)
    (hbuf : t.buffer = [])
    (h1 : insertAll t ops = .ok t1)
    (hperm : ops.Perm ops2)
    (h2 : setFromComponents t ops2 = .ok t2) :
    lookupZero (pack t1).storage C = sumAt ops C ∧
    lookupZero (pack t2).storage C = sumAt ops C := by
  rw [setFromComponents] at h2
  have b1 := (insertAll_ok h1).1
  have b2 := (insertAll_ok h2).1
  rw [hbuf] at b1 b2
  simp at b1 b2
  have s1 : (pack t1).storage = packCoords t1.buffer := rfl
  have s2 : (pack t2).storage = packCoords t2.buffer := rfl
  constructor
  · rw [s1, b1, lookupZero_packCoords]
  · rw [s2, b2, lookupZero_packCoords, sumAt_perm hperm]

def tC1 : TensorState := mkTensor "double" [2, 2]

def opsC1 : List CoordRecord := [([0, 0], 2), ([0, 1], 5), ([0, 0], 3)]

def opsC1p : List CoordRecord := [([0, 0], 3), ([0, 1], 5), ([0, 0], 2)]

def tC1a : TensorState := { tC1 with
  buffer := opsC1, bufSize := 36, bufUsed := 36, needsPack := true }

def tC1b : TensorState := { tC1 with
  buffer := opsC1p, bufSize := 36, bufUsed := 36, needsPack := true }

/-- C1 witness: coordinate (0,0) inserted twice with values 2 and 3 among a
third insertion, in two different orders; both packed tensors store 5. -/
theorem C1_witness_concrete :
    lookupZero (pack tC1a).storage [0, 0] = sumAt opsC1 [0, 0] ∧
    lookupZero (pack tC1b).storage [0, 0] = sumAt opsC1 [0, 0] :=
  C1_duplicate_summation tC1 opsC1 opsC1p tC1a tC1b [0, 0]
    (by decide) (by decide) (by decide) (by decide)

/-! ### Claim C8: evaluate is idempotent and clears the need-flags -/

/-- C8: a completed `evaluate()` leaves all four need-flags false, and
calling `evaluate()` again with no intervening mutation is a no-op: it
returns the same state, so the storage is identical. -/
theorem C8_evaluate_idempotent {t t' : TensorState} (h : evaluate t = .ok t') :
    flagsClear t' = true ∧ evaluate t' = .ok t' :=
  ⟨evaluate_flags h, evaluate_noop (evaluate_flags h)⟩

def tC8 : TensorState := { mkTensor "int32" [2] with
  buffer := [([0], 5)], bufSize := 8, bufUsed := 8, needsPack := true,
  assignment := some [([1], 7)], needsCompile := true,
  needsAssemble := true, needsCompute := true }

def tC8res : TensorState := { mkTensor "int32" [2] with
  storage := [([1], 7)], bufSize := 8, assignment := some [([1], 7)],
  kernelCompiled := true }

/-- C8 witness: a tensor with every stage pending evaluates to a state with
all flags clear on which a second evaluate is the identity. -/
theorem C8_witness_concrete :
    flagsClear tC8res = true ∧ evaluate tC8res = .ok tC8res :=
  @C8_evaluate_idempotent tC8 tC8res (by decide)

/-! ### Claim C3: iterate/at round trip on a packed tensor -/

/-- C3: for a packed tensor (duplicate-free storage, nothing pending),
every (coord, value) pair yielded by iterating satisfies value = at(coord),
and at returns 0 — a domain default, not an error — for every in-range
coordinate absent from storage. -/
theorem C3_at_round_trip (t : TensorState) (ty : String)
    (hclear : flagsClear t = true)
    (hty : t.componentType = ty)
    (hnodup : (t.storage.map Prod.fst).Nodup)
    (hlen : ∀ r ∈ t.storage, r.1.length = t.order) :
    (∀ r ∈ (iteratorConst t).2, atCoord t ty r.1 = .ok (t, r.2)) ∧
    (∀ c : Coord, c.length = t.order → inRange t.dims c = true →
      (∀ r ∈ t.storage, r.1 ≠ c) → atCoord t ty c = .ok (t, 0)) := by
  have hsync : syncValues t = .ok t := evaluate_noop hclear
  constructor
  · intro r hr
    have hrs : r ∈ t.storage := hr
    rw [atCoord, if_neg (by simp [hlen r hrs]), if_neg (by simp [hty]), hsync]
    have hl : lookupZero t.storage r.1 = r.2 :=
      lookupZero_of_mem hnodup (by simpa using hrs)
    exact congrArg (fun x => Except.ok (t, x)) hl
  · intro c hclen _ habs
    rw [atCoord, if_neg (by simp [hclen]), if_neg (by simp [hty]), hsync]
    exact congrArg (fun x => Except.ok (t, x)) (lookupZero_of_absent habs)

def tC3 : TensorState := { mkTensor "double" [2, 2] with
  storage := [([0, 0], 1), ([1, 1], 3)] }

/-- C3 witness: on a packed 2x2 tensor holding (0,0) -> 1 and (1,1) -> 3,
at returns the iterated values and 0 at the absent in-range (1,0). -/
theorem C3_witness_concrete :
    atCoord tC3 "double" [0, 0] = .ok (tC3, 1) ∧
    atCoord tC3 "double" [1, 0] = .ok (tC3, 0) :=
  ⟨(C3_at_round_trip tC3 "double" (by decide) rfl (by decide)
      (by decide)).1 ([0, 0], 1) (by decide),
   (C3_at_round_trip tC3 "double" (by decide) rfl (by decide)
      (by decide)).2 [1, 0] (by decide) (by decide) (by decide)⟩

/-! ### Claim C2 (corrected): which reads force syncValues -/

/-- C2 amended: every read operation — at(), iteration via the non-const
begin()/iterator(), equality comparison, and printing — first calls
syncValues(), which forces evaluate() to completion, before any value is
produced, so those readers never observe a pending stage; the sole
exception, forced by the code, is the const-qualified iterator()/begin()
overload, which constructs an iterator WITHOUT calling syncValues() and
reads the current storage as is. -/
theorem C2_sync_on_reads (t u t' u' : TensorState) (ty : String) (c : Coord)
    (v : Int) (vals : List CoordRecord) (eq : Bool) :
    (atCoord t ty c = .ok (t', v) → flagsClear t' = true) ∧
    (iteratorNonconst t = .ok (t', vals) →
      flagsClear t' = true ∧ vals = t'.storage) ∧
    (tensorEquals t u = .ok (t', u', eq) →
      flagsClear t' = true ∧ flagsClear u' = true) ∧
    (printTensor t = .ok (t', vals) →
      flagsClear t' = true ∧ vals = t'.storage) ∧
    iteratorConst t = (t, t.storage) := by
  refine ⟨?_, ?_, ?_, ?_, rfl⟩
  · intro h
    rw [atCoord] at h
    split at h
    · exact absurd h (by simp)
    · split at h
      · exact absurd h (by simp)
      · rcases hs : syncValues t with e | a
        · rw [hs] at h
          exact absurd h (by simp)
        · rw [hs] at h
          have ht' : t' = a := (congrArg Prod.fst (Except.ok.inj h)).symm
          rw [ht']
          exact evaluate_flags hs
  · intro h
    rw [iteratorNonconst] at h
    rcases hs : syncValues t with e | a
    · rw [hs] at h
      exact absurd h (by simp)
    · rw [hs] at h
      have hp := Except.ok.inj h
      have ht' : t' = a := (congrArg Prod.fst hp).symm
      have hv : vals = a.storage := (congrArg Prod.snd hp).symm
      rw [ht', hv]
      exact ⟨evaluate_flags hs, rfl⟩
  · intro h
    rw [tensorEquals] at h
    rcases hs1 : syncValues t with e | a
    · rw [hs1] at h
      exact absurd h (by simp)
    · rw [hs1] at h
      rcases hs2 : syncValues u with e | b
      · rw [hs2] at h
        exact absurd h (by simp)
      · rw [hs2] at h
        have hp := Except.ok.inj h
        have ht' : t' = a := (congrArg Prod.fst hp).symm
        have hu' : u' = b :=
          (congrArg Prod.fst (congrArg Prod.snd hp)).symm
        rw [ht', hu']
        exact ⟨evaluate_flags hs1, evaluate_flags hs2⟩
  · intro h
    rw [printTensor] at h
    rcases hs : syncValues t with e | a
    · rw [hs] at h
      exact absurd h (by simp)
    · rw [hs] at h
      have hp := Except.ok.inj h
      have ht' : t' = a := (congrArg Prod.fst hp).symm
      have hv : vals = a.storage := (congrArg Prod.snd hp).symm
      rw [ht', hv]
      exact ⟨evaluate_flags hs, rfl⟩

def tC2pending : TensorState := { mkTensor "int32" [2] with
  buffer := [([0], 5)], bufSize := 8, bufUsed := 8, needsPack := true }

/-- C2 counterexample: the const-qualified iteration path
(`Tensor::begin() const` -> `TensorBase::iterator() const`, tensor.h 834-842
and 967-969) yields values without calling syncValues(): on a tensor whose
pack is pending it returns the stale empty storage and the reader observes
`needsPack` still set, although a forced evaluate would store the pending
record (0) -> 5. -/
theorem C2_counterexample :
    iteratorConst tC2pending = (tC2pending, []) ∧
    tC2pending.needsPack = true ∧
    evaluate tC2pending = .ok (pack tC2pending) ∧
    (pack tC2pending).storage = [([0], 5)] := by
  decide

/-- C2 witness: at(), equality comparison and printing on the pending
tensor all force the pack and return synced, flags-clear states, while
const iteration returns the unsynced one. -/
theorem C2_witness_concrete :
    flagsClear (pack tC2pending) = true ∧
    (flagsClear (pack tC2pending) = true ∧
     flagsClear (pack tC2pending) = true) ∧
    (flagsClear (pack tC2pending) = true ∧
     [([0], 5)] = (pack tC2pending).storage) ∧
    iteratorConst tC2pending = (tC2pending, tC2pending.storage) :=
  ⟨(C2_sync_on_reads tC2pending tC2pending (pack tC2pending)
      (pack tC2pending) "int32" [0] 5 [([0], 5)] true).1 (by decide),
   (C2_sync_on_reads tC2pending tC2pending (pack tC2pending)
      (pack tC2pending) "int32" [0] 5 [([0], 5)] true).2.2.1 (by decide),
   (C2_sync_on_reads tC2pending tC2pending (pack tC2pending)
      (pack tC2pending) "int32" [0] 5 [([0], 5)] true).2.2.2.1 (by decide),
   (C2_sync_on_reads tC2pending tC2pending (pack tC2pending)
      (pack tC2pending) "int32" [0] 5 [([0], 5)] true).2.2.2.2⟩

/-! ### Claim C9: ScalarAccess assignment is insert, reading is at -/

theorem scalarAssignAll_eq (t : TensorState) (c : Coord) (vs : List Int) :
    scalarAssignAll t c vs = insertAll t (vs.map (fun v => (c, v))) := by
  induction vs generalizing t with
  | nil => rfl
  | cons v rest ih =>
    simp only [scalarAssignAll, insertAll, scalarAssign, List.map_cons]
    cases hi : insert t t.componentType c v with
    | error e => simp [hi]
    | ok u => simp [hi, ih u]

theorem sumAt_map_const (c : Coord) (vs : List Int) :
    sumAt (vs.map (fun v => (c, v))) c = vs.sum := by
  induction vs with
  | nil => simp [sumAt]
  | cons v rest ih =>
    simp only [sumAt, List.map_cons, List.filter_cons] at ih ⊢
    simp only [beq_self_eq_true, if_true, List.map_cons, List.sum_cons]
    rw [ih]

/-- C9: assigning through a ScalarAccess (`tensor(i,j) = v`) is exactly an
insert at that coordinate, not an overwrite — n assignments v1..vn at one
coordinate followed by pack store v1+...+vn there — and reading a
ScalarAccess is exactly at(coordinate). -/
theorem C9_scalar_access (t t1 : TensorState) (c : Coord) (vs : List Int)
    (hbuf : t.buffer = [])
    (h : scalarAssignAll t c vs = .ok t1) :
    (∀ v, scalarAssign t c v = insert t t.componentType c v) ∧
    scalarRead t c = atCoord t t.componentType c ∧
    lookupZero (pack t1).storage c = vs.sum := by
  refine ⟨fun v => rfl, rfl, ?_⟩
  rw [scalarAssignAll_eq] at h
  have b1 := (insertAll_ok h).1
  rw [hbuf] at b1
  simp at b1
  have s1 : (pack t1).storage = packCoords t1.buffer := rfl
  rw [s1, b1, lookupZero_packCoords, sumAt_map_const]

def tC9 : TensorState := mkTensor "double" [2, 2]

def tC9a : TensorState := { tC9 with
  buffer := [([1, 1], 2), ([1, 1], 3), ([1, 1], 4)],
  bufSize := 36, bufUsed := 36, needsPack := true }

/-- C9 witness: three scalar assignments of 2, 3, 4 at (1,1) pack to 9. -/
theorem C9_witness_concrete :
    (∀ v, scalarAssign tC9 [1, 1] v = insert tC9 tC9.componentType [1, 1] v) ∧
    scalarRead tC9 [1, 1] = atCoord tC9 tC9.componentType [1, 1] ∧
    lookupZero (pack tC9a).storage [1, 1] = ([2, 3, 4] : List Int).sum :=
  C9_scalar_access tC9 tC9a [1, 1] [2, 3, 4] (by decide) (by decide)

/-! ### Claim C4: iterator independence under copy (copy-on-write) -/

theorem getD_append_length {α : Type} (l : List α) (x d : α) :
    (l ++ [x]).getD l.length d = x := by
  rw [List.getD_append_right _ _ _ _ (Nat.le_refl _)]
  simp

theorem advance_unshared {w : IterWorld} {it : Iter}
    (h : ¬ 1 < w.counts.getD it.ctxId 0) :
    advance w it =
      ({ w with heap := w.heap.set it.ctxId
                          (advCore (w.heap.getD it.ctxId default)
                            it.bufferCapacity it.bufferSize it.bufferPos).1 },
       { it with
         bufferSize := (advCore (w.heap.getD it.ctxId default)
                         it.bufferCapacity it.bufferSize it.bufferPos).2.1,
         bufferPos := (advCore (w.heap.getD it.ctxId default)
                        it.bufferCapacity it.bufferSize it.bufferPos).2.2 }) := by
  simp only [advance, if_neg h]

theorem advance_shared {w : IterWorld} {it : Iter}
    (h : 1 < w.counts.getD it.ctxId 0) :
    advance w it =
      ({ heap := (w.heap ++ [w.heap.getD it.ctxId default]).set w.heap.length
                   (advCore (w.heap.getD it.ctxId default)
                     it.bufferCapacity it.bufferSize it.bufferPos).1,
         counts := (w.counts.set it.ctxId (w.counts.getD it.ctxId 0 - 1)) ++ [1] },
       { it with
         ctxId := w.heap.length,
         bufferSize := (advCore (w.heap.getD it.ctxId default)
                         it.bufferCapacity it.bufferSize it.bufferPos).2.1,
         bufferPos := (advCore (w.heap.getD it.ctxId default)
                        it.bufferCapacity it.bufferSize it.bufferPos).2.2 }) := by
  simp only [advance, if_pos h, getD_append_length]

/-- C4: copying an iterator at position P and advancing the copy triggers
the copy-on-write clone, so the original's position, current (coordinate,
value) pair and next-yielded observation are unchanged; after the copy's
first advance the two handles reference distinct contexts, each with use
count one, and progress independently. -/
theorem C4_iterator_cow (w : IterWorld) (it : Iter)
    (hlen : w.counts.length = w.heap.length)
    (hid : it.ctxId < w.heap.length)
    (hcount : w.counts.getD it.ctxId 0 = 1) :
    (copyAdvanced w it).2.ctxId ≠ it.ctxId ∧
    obs (copyAdvanced w it).1 it = obs w it ∧
    obs (advance (copyAdvanced w it).1 it).1
        (advance (copyAdvanced w it).1 it).2 =
      obs (advance w it).1 (advance w it).2 ∧
    (copyAdvanced w it).1.counts.getD it.ctxId 0 = 1 ∧
    (copyAdvanced w it).1.counts.getD (copyAdvanced w it).2.ctxId 0 = 1 := by
  have hidc : it.ctxId < w.counts.length := hlen ▸ hid
  have hc2 : (copyIter w it).1.counts.getD it.ctxId 0 = 2 := by
    show (w.counts.set it.ctxId (w.counts.getD it.ctxId 0 + 1)).getD it.ctxId 0 = 2
    rw [getD_set_self _ _ _ _ hidc, hcount]
  have hca : copyAdvanced w it =
      ({ heap := (w.heap ++ [w.heap.getD it.ctxId default]).set w.heap.length
                   (advCore (w.heap.getD it.ctxId default)
                     it.bufferCapacity it.bufferSize it.bufferPos).1,
         counts := (w.counts.set it.ctxId 1) ++ [1] },
       { it with
         ctxId := w.heap.length,
         bufferSize := (advCore (w.heap.getD it.ctxId default)
                         it.bufferCapacity it.bufferSize it.bufferPos).2.1,
         bufferPos := (advCore (w.heap.getD it.ctxId default)
                        it.bufferCapacity it.bufferSize it.bufferPos).2.2 }) := by
    rw [copyAdvanced]
    show advance (copyIter w it).1 it = _
    rw [advance_shared (lt_of_lt_of_eq Nat.one_lt_two hc2.symm)]
    simp only [copyIter, hcount]
    rw [getD_set_self _ _ _ _ hidc]
    simp [List.set_set]
  have hLne : w.heap.length ≠ it.ctxId := (Nat.ne_of_lt hid).symm
  have hgetn : ∀ x, ((w.heap ++ [w.heap.getD it.ctxId default]).set
      w.heap.length x).getD it.ctxId default = w.heap.getD it.ctxId default := by
    intro x
    rw [getD_set_ne _ _ _ _ _ hLne, List.getD_append _ _ _ _ hid]
  have hcnt1 : ((w.counts.set it.ctxId 1) ++ [1]).getD it.ctxId 0 = 1 := by
    rw [List.getD_append _ _ _ _ (by simpa using hidc),
        getD_set_self _ _ _ _ hidc]
  refine ⟨?_, ?_, ?_, ?_, ?_⟩
  · rw [hca]
    exact hLne
  · rw [obs, obs, hca, hgetn]
  · rw [hca]
    rw [advance_unshared (by rw [hcnt1]; exact Nat.lt_irrefl 1),
        advance_unshared (by rw [hcount]; exact Nat.lt_irrefl 1)]
    rw [obs, obs, hgetn]
    have h1 : it.ctxId < ((w.heap ++ [w.heap.getD it.ctxId default]).set
        w.heap.length (advCore (w.heap.getD it.ctxId default)
          it.bufferCapacity it.bufferSize it.bufferPos).1).length := by
      simp
      omega
    rw [getD_set_self _ _ _ _ h1, getD_set_self _ _ _ _ hid]
  · rw [hca]
    exact hcnt1
  · rw [hca]
    show ((w.counts.set it.ctxId 1) ++ [1]).getD w.heap.length 0 = 1
    have hLc : w.heap.length = (w.counts.set it.ctxId 1).length := by
      rw [List.length_set, hlen]
    rw [hLc, getD_append_length]

def wC4 : IterWorld :=
  ⟨[⟨[([0], 1), ([1], 2)], ([0], 1), [([2], 3), ([3], 4)]⟩], [1]⟩

def itC4 : Iter := ⟨0, 2, 2, 0, 0⟩

/-- C4 witness: a live iterator mid-batch; copying it and advancing the copy
leaves the original's observation intact and separates the contexts. -/
theorem C4_witness_concrete :
    (copyAdvanced wC4 itC4).2.ctxId ≠ itC4.ctxId ∧
    obs (copyAdvanced wC4 itC4).1 itC4 = obs wC4 itC4 ∧
    obs (advance (copyAdvanced wC4 itC4).1 itC4).1
        (advance (copyAdvanced wC4 itC4).1 itC4).2 =
      obs (advance wC4 itC4).1 (advance wC4 itC4).2 ∧
    (copyAdvanced wC4 itC4).1.counts.getD itC4.ctxId 0 = 1 ∧
    (copyAdvanced wC4 itC4).1.counts.getD (copyAdvanced wC4 itC4).2.ctxId 0 = 1 :=
  C4_iterator_cow wC4 itC4 (by decide) (by decide) (by decide)

/-! ### Claim C5 (corrected): iterator equality -/

/-- C5 amended: operator== returns true iff both iterators reference the
same tensor AND their end statuses agree AND (they are at end, or their
current coordinate tuples are equal). In particular two end iterators over
different tensors compare unequal. -/
theorem C5_iterator_equality (w : IterWorld) (a b : Iter) :
    iterEq w a b = true ↔
      (a.tensorId = b.tensorId ∧ ((a.bufferSize = 0) ↔ (b.bufferSize = 0)) ∧
       (a.bufferSize = 0 ∨
        (w.heap.getD a.ctxId default).curVal.1 =
          (w.heap.getD b.ctxId default).curVal.1)) := by
  by_cases h1 : a.tensorId = b.tensorId <;>
    by_cases h2 : a.bufferSize = 0 <;>
      by_cases h3 : b.bufferSize = 0 <;>
        simp [iterEq, h1, h2, h3]

def wC5 : IterWorld := ⟨[], []⟩

def itC5a : Iter := ⟨0, 100, 0, 0, 0⟩

def itC5b : Iter := ⟨1, 100, 0, 0, 0⟩

/-- C5 counterexample: two end iterators (bufferSize 0) over different
tensors (tensor ids 0 and 1). The claim's first disjunct — both at end —
makes them equal, but operator== (tensor.h 193-197) also requires
`tensor == rhs.tensor` and returns false. -/
theorem C5_counterexample :
    iterEq wC5 itC5a itC5b = false ∧
    iterEqClaim wC5 itC5a itC5b = true ∧
    itC5a.bufferSize = 0 ∧ itC5b.bufferSize = 0 := by
  decide

/-- C5 witness: the amended equivalence instantiated at an end iterator
compared with itself. -/
theorem C5_witness_concrete :
    iterEq wC5 itC5a itC5a = true ↔
      (itC5a.tensorId = itC5a.tensorId ∧
       ((itC5a.bufferSize = 0) ↔ (itC5a.bufferSize = 0)) ∧
       (itC5a.bufferSize = 0 ∨
        (wC5.heap.getD itC5a.ctxId default).curVal.1 =
          (wC5.heap.getD itC5a.ctxId default).curVal.1)) :=
  C5_iterator_equality wC5 itC5a itC5a

/-! ### Claim C6 (corrected): coordinate buffer growth -/

/-- C6 amended: when insert finds the remaining capacity insufficient for
one more record, the buffer grows ADDITIVELY by exactly one record size
(`coordinateBuffer->resize(coordinateBuffer->size() + coordinateSize)`,
tensor.h 786-788) — not geometrically — and the buffer never shrinks. -/
theorem C6_buffer_growth (t t' : TensorState) (ty : String) (c : Coord)
    (v : Int) (h : insert t ty c v = .ok t') :
    t.bufSize ≤ t'.bufSize ∧
    (t.bufSize - t.bufUsed < t.coordinateSize →
      t'.bufSize = t.bufSize + t.coordinateSize) ∧
    (¬ t.bufSize - t.bufUsed < t.coordinateSize →
      t'.bufSize = t.bufSize) := by
  have hu := (insert_ok h).1
  subst hu
  by_cases hg : t.bufSize - t.bufUsed < t.coordinateSize <;>
    simp [hg, Nat.le_add_right]

def tC6x : TensorState := { mkTensor "int32" [1] with
  bufSize := 16, bufUsed := 16 }

def tC6y : TensorState := { tC6x with
  bufSize := 24, bufUsed := 24, buffer := [([0], 1)], needsPack := true }

def tC6z : TensorState := { tC6y with
  bufSize := 32, bufUsed := 32, buffer := [([0], 1), ([1], 2)] }

/-- C6 counterexample: with record size 8, two successive insertions into a
full buffer grow its capacity 16 -> 24 -> 32: the successive growth factors
24/16 = 3/2 and 32/24 = 4/3 differ (24*24 is not 16*32), so the capacity
does not increase by a multiplicative factor; growth is additive by one
record size. -/
theorem C6_counterexample :
    insert tC6x "int32" [0] 1 = .ok tC6y ∧
    insert tC6y "int32" [1] 2 = .ok tC6z ∧
    tC6y.bufSize * tC6y.bufSize ≠ tC6x.bufSize * tC6z.bufSize := by
  decide

/-- C6 witness: the first full-buffer insertion above grows 16 by exactly
the record size 8 and does not shrink. -/
theorem C6_witness_concrete :
    tC6x.bufSize ≤ tC6y.bufSize ∧
    (tC6x.bufSize - tC6x.bufUsed < tC6x.coordinateSize →
      tC6y.bufSize = tC6x.bufSize + tC6x.coordinateSize) ∧
    (¬ tC6x.bufSize - tC6x.bufUsed < tC6x.coordinateSize →
      tC6y.bufSize = tC6x.bufSize) :=
  C6_buffer_growth tC6x tC6y "int32" [0] 1 (by decide)

/-! ### Claim C7 (corrected): contract violations -/

/-- C7 amended: arity, datatype and format contract violations each fail
immediately with an error and nothing is silently coerced or truncated (a
successful insert appends exactly the given record). The datatype-mismatch
messages name the given type and the tensor's component type, and the CSR
accessor's message names the offending tensor; but the arity-mismatch
message is the fixed string "Wrong number of indices", which identifies
neither the expected order nor the actual arity. -/
theorem C7_contract_violations (t : TensorState) (ty : String) (c : Coord)
    (v : Int) :
    (c.length ≠ t.order →
      insert t ty c v = .error "Wrong number of indices") ∧
    (c.length = t.order → t.componentType ≠ ty →
      insert t ty c v = .error ("Cannot insert a value of type '" ++ ty ++
        "' " ++ "into a tensor with component type " ++ t.componentType)) ∧
    (c.length ≠ t.order →
      atCoord t ty c = .error "Wrong number of indices") ∧
    (c.length = t.order → t.componentType ≠ ty →
      atCoord t ty c = .error ("Cannot get a value of type '" ++ ty ++
        "' " ++ "from a tensor with component type " ++ t.componentType)) ∧
    (t.format ≠ CSR →
      getCSRArrays t = .error ("The tensor " ++ t.name ++
        " is not defined in the CSR format")) ∧
    (c.length = t.order → t.componentType = ty →
      insert t ty c v = .ok { t with
        bufSize := if t.bufSize - t.bufUsed < t.coordinateSize
                   then t.bufSize + t.coordinateSize else t.bufSize,
        bufUsed := t.bufUsed + t.coordinateSize,
        buffer := t.buffer ++ [(c, v)],
        needsPack := true }) := by
  refine ⟨?_, ?_, ?_, ?_, ?_, ?_⟩
  · intro h
    rw [insert, if_pos h]
  · intro h1 h2
    rw [insert, if_neg (by simp [h1]), if_pos h2]
  · intro h
    rw [atCoord, if_pos h]
  · intro h1 h2
    rw [atCoord, if_neg (by simp [h1]), if_pos h2]
  · intro h
    rw [getCSRArrays, if_pos h]
  · intro h1 h2
    rw [insert, if_neg (by simp [h1]), if_neg (by simp [h2])]

def tC7a : TensorState := mkTensor "int32" [4, 4]

def tC7b : TensorState := mkTensor "int32" [2, 2, 2, 2, 2]

/-- C7 counterexample: an arity-2 tensor given one index and an arity-5
tensor given three indices fail with the SAME fixed message "Wrong number
of indices", which contains none of the digits 1, 2, 3, 5 — it does not
identify the expected versus actual value. -/
theorem C7_counterexample :
    insert tC7a "int32" [0] 1 = .error "Wrong number of indices" ∧
    insert tC7b "int32" [0, 0, 0] 1 = .error "Wrong number of indices" ∧
    hasSubstr "Wrong number of indices".toList "1".toList = false ∧
    hasSubstr "Wrong number of indices".toList "2".toList = false ∧
    hasSubstr "Wrong number of indices".toList "3".toList = false ∧
    hasSubstr "Wrong number of indices".toList "5".toList = false := by
  decide

/-- C7 witness: the amended behavior at concrete inputs — an arity mismatch
and a format mismatch both fail immediately with their messages. -/
theorem C7_witness_concrete :
    insert tC7a "int32" [0] 1 = .error "Wrong number of indices" ∧
    getCSRArrays tC7a = .error ("The tensor " ++ tC7a.name ++
      " is not defined in the CSR format") :=
  ⟨(C7_contract_violations tC7a "int32" [0] 1).1 (by decide),
   (C7_contract_violations tC7a "int32" [0] 1).2.2.2.2.1 (by decide)⟩

/-! ### Claim C10: transpose -/

theorem permuteCoord_inj (p : List Nat) (n : Nat) (hp : p.Perm (List.range n))
    (c1 c2 : Coord) (h1 : c1.length = n) (h2 : c2.length = n)
    (he : permuteCoord p c1 = permuteCoord p c2) : c1 = c2 := by
  have hmem : ∀ m ∈ p, c1.getD m 0 = c2.getD m 0 := List.map_inj_left.mp he
  apply List.ext_getElem (h1.trans h2.symm)
  intro i hi1 hi2
  have hin : i ∈ p := hp.mem_iff.mpr (List.mem_range.mpr (h1 ▸ hi1))
  have hg := hmem i hin
  rwa [List.getD_eq_getElem _ _ hi1, List.getD_eq_getElem _ _ hi2] at hg

/-- C10: for a valid mode permutation p, every (coordinate, value) pair
yielded by iterating T appears in T.transpose(p) at the permuted coordinate
(coordinate[p[0]], ..., coordinate[p[order-1]]) with the same value, the
transposed tensor's dimensions are the correspondingly permuted dimensions
of T, and the transposed tensor comes back already packed (needsPack clear,
coordinate buffer empty). -/
theorem C10_transpose (t : TensorState) (p : List Nat)
    (hperm : p.Perm (List.range t.order))
    (hnodup : (t.storage.map Prod.fst).Nodup)
    (hlen : ∀ r ∈ t.storage, r.1.length = t.order) :
    ∃ t', transpose t p = .ok t' ∧
      t'.dims = p.map (fun m => t.dims.getD m 0) ∧
      t'.needsPack = false ∧ t'.buffer = [] ∧
      (∀ r ∈ (iteratorConst t).2, (permuteCoord p r.1, r.2) ∈ t'.storage) := by
  have hlenp : p.length = t.order := hperm.length_eq.trans (List.length_range _)
  have hord : ∀ r ∈ (iteratorConst t).2.map (fun r => (permuteCoord p r.1, r.2)),
      r.1.length =
        (mkTensor t.componentType (p.map (fun m => t.dims.getD m 0))).order := by
    intro r hr
    obtain ⟨r0, _, hre⟩ := List.mem_map.mp hr
    rw [← hre]
    show (permuteCoord p r0.1).length = _
    simp [permuteCoord, mkTensor, TensorState.order]
  obtain ⟨u, hu⟩ := insertAll_total
    (mkTensor t.componentType (p.map (fun m => t.dims.getD m 0)))
    ((iteratorConst t).2.map (fun r => (permuteCoord p r.1, r.2))) hord
  have hf := insertAll_ok hu
  have hub : u.buffer = (iteratorConst t).2.map (fun r => (permuteCoord p r.1, r.2)) := by
    have hb := hf.1
    simpa [mkTensor] using hb
  have hkeys : (((iteratorConst t).2.map (fun r => (permuteCoord p r.1, r.2))).map
      Prod.fst) = (t.storage.map Prod.fst).map (permuteCoord p) := by
    show ((t.storage.map (fun r => (permuteCoord p r.1, r.2))).map Prod.fst) = _
    simp [List.map_map]
  have hnd : (((iteratorConst t).2.map (fun r => (permuteCoord p r.1, r.2))).map
      Prod.fst).Nodup := by
    rw [hkeys]
    refine List.Nodup.map_on ?_ hnodup
    intro x hx y hy hxy
    obtain ⟨rx, hrx, hrex⟩ := List.mem_map.mp hx
    obtain ⟨ry, hry, hrey⟩ := List.mem_map.mp hy
    exact permuteCoord_inj p t.order hperm x y
      (hrex ▸ hlen rx hrx) (hrey ▸ hlen ry hry) hxy
  have hstor : (pack u).storage =
      (iteratorConst t).2.map (fun r => (permuteCoord p r.1, r.2)) := by
    show packCoords u.buffer = _
    rw [hub, packCoords_of_nodup _ hnd]
  refine ⟨pack u, ?_, ?_, rfl, rfl, ?_⟩
  · rw [transpose, hu]
    rfl
  · show u.dims = _
    rw [hf.2.2.1]
    rfl
  · intro r hr
    rw [hstor]
    exact List.mem_map_of_mem _ hr

def tC10 : TensorState := { mkTensor "double" [2, 3] with
  storage := [([0, 1], 7), ([1, 2], 9)] }

/-- C10 witness: transposing a packed 2x3 tensor with mode ordering (1,0)
yields a packed 3x2 tensor holding the swapped coordinates. -/
theorem C10_witness_concrete :
    ∃ t', transpose tC10 [1, 0] = .ok t' ∧
      t'.dims = [1, 0].map (fun m => tC10.dims.getD m 0) ∧
      t'.needsPack = false ∧ t'.buffer = [] ∧
      (∀ r ∈ (iteratorConst tC10).2,
        (permuteCoord [1, 0] r.1, r.2) ∈ t'.storage) :=
  C10_transpose tC10 [1, 0] (by decide) (by decide) (by decide)

end Taco
